import Mathlib

/-!
Shallow embedding of the style-cascade resolver (src/style.rs, src/cssom.rs,
src/dom.rs) and the block-layout engine (src/layout.rs) of the chrusty
rendering pipeline, together with theorems settling the specification claims.

Machine integers: the layout engine computes in Rust `u32`; we model `u32`
values as `Nat` and model the arithmetic as checked (`Option Nat`), `none`
standing for the arithmetic panic (overflow/underflow) of the source.
Fallible code (`panic!`, `todo!`, `unreachable!`) is modelled with `Option`,
`none` standing for the fatal condition.
-/

namespace Chrusty

/-- Tag kinds of `dom.rs`. Modelled from the spec: the `dom.rs` snapshot under
`src/` lacks the `Span` variant that `style.rs` pattern-matches on
(`TagType::Span`); the spec names span as the inline tag kind, so we include
it. -/
inductive TagType where
  | html
  | div
  | p
  | style
  | span
deriving DecidableEq

/-- `ElementData` of `dom.rs`: a tag and an attribute map (modelled as an
association list; lookup takes the first binding). -/
structure ElementData where
  tag_type : TagType
  attributes : List (String × String)
deriving DecidableEq

def ElementData.getAttr (e : ElementData) (k : String) : Option String :=
  (e.attributes.find? (fun a => a.1 == k)).map (fun a => a.2)

/-- `ElementData::id` of `dom.rs`. -/
def ElementData.id (e : ElementData) : Option String :=
  e.getAttr "id"

/-- Rust `str::split(' ')`: the pieces between single spaces, empty pieces
preserved; an empty input gives one empty piece. -/
def splitOnSpace : List Char → List (List Char)
  | [] => [[]]
  | c :: rest =>
    match splitOnSpace rest with
    | [] => [[]]
    | h :: t => if c = ' ' then [] :: h :: t else (c :: h) :: t

/-- `ElementData::classes` of `dom.rs`: the `class` attribute split on a
single space (as Rust `split(' ')`); no attribute means no classes. -/
def ElementData.classes (e : ElementData) : List String :=
  match e.getAttr "class" with
  | some classlist => (splitOnSpace classlist.toList).map List.asString
  | none => []

/-- `NodeType` of `dom.rs`. -/
inductive NodeType where
  | text (content : String)
  | element (data : ElementData)
deriving DecidableEq

/-- `DomNode`: a node type together with an ordered child list. Modelled from
the spec: the `dom.rs` snapshot under `src/` names this type `Node`; the
`DomNode` used by `style.rs` and the parsers carries the same data. -/
inductive DomNode where
  | mk (node_type : NodeType) (children : List DomNode)

def DomNode.node_type : DomNode → NodeType
  | .mk t _ => t

def DomNode.get_children : DomNode → List DomNode
  | .mk _ c => c

/-- `DomNode::get_tag_type` as used by `style.rs`: the element tag, `none`
for a text node. -/
def DomNode.get_tag_type (n : DomNode) : Option TagType :=
  match n.node_type with
  | .element e => some e.tag_type
  | .text _ => none

/-- `Unit` of `cssom.rs` (renamed: `Unit` is taken in Lean). -/
inductive CSSUnit where
  | px
  | percent
deriving DecidableEq

/-- `ColorData` of `cssom.rs`. -/
inductive ColorData where
  | rgb (r g b : Nat)
  | hex (s : String)
deriving DecidableEq

/-- `CSSValue` of `cssom.rs`. The numeric payload of `Dimension` is consumed
by `layout.rs` as a `u32`, modelled as `Nat`. -/
inductive CSSValue where
  | Dimension (value : Nat) (unit : CSSUnit)
  | Keyword (s : String)
  | Color (c : ColorData)
deriving DecidableEq

/-- `CSSProperty` of `cssom.rs`. -/
inductive CSSProperty where
  | Display
  | Padding
  | Background
  | Color
  | Width
  | Height
deriving DecidableEq

/-- `CSSProperty::default_value`. Modelled from the spec: the function is
called by `style.rs` but its body is not under `src/`. The spec requires that
an unset `display` computes to Block (so the default is a keyword other than
"inline"/"none"), that geometry properties always carry a usable default
(padding must resolve to a Dimension for layout to proceed), and that an
unset `width`/`height` falls back to the container / shrink-to-fit branch
(so their defaults are not Dimensions). -/
def CSSProperty.default_value : CSSProperty → CSSValue
  | .Display => .Keyword "block"
  | .Padding => .Dimension 0 .px
  | .Background => .Keyword "transparent"
  | .Color => .Keyword "black"
  | .Width => .Keyword "auto"
  | .Height => .Keyword "auto"

/-- `SimpleSelector` of `cssom.rs` (`class` is a Lean keyword, renamed
`classList`). -/
structure SimpleSelector where
  tag : Option TagType
  id : Option String
  classList : List String
deriving DecidableEq

/-- `CSSSelector` of `cssom.rs`. -/
inductive CSSSelector where
  | SimpleSelector (s : SimpleSelector)
deriving DecidableEq

/-- `CSSDeclaration` of `cssom.rs`. -/
structure CSSDeclaration where
  property : CSSProperty
  value : CSSValue
  is_important : Bool
deriving DecidableEq

/-- `CSSRule` of `cssom.rs`. -/
structure CSSRule where
  selectors : List CSSSelector
  declarations : List CSSDeclaration
deriving DecidableEq

/-- `Stylesheet` of `cssom.rs`. -/
structure Stylesheet where
  rules : List CSSRule
deriving DecidableEq

/-- `CSSSpecifity` of `cssom.rs` (source spelling kept): `(usize, usize, usize)`,
compared lexicographically by Rust's derived `Ord` on triples. -/
abbrev CSSSpecifity := Nat × Nat × Nat

def optCount {α : Type} : Option α → Nat
  | some _ => 1
  | none => 0

/-- `CSSSelector::specificity` of `cssom.rs`: `(id count, class count, tag count)`. -/
def CSSSelector.specificity : CSSSelector → CSSSpecifity
  | .SimpleSelector s => (optCount s.id, s.classList.length, optCount s.tag)

/-- Boolean `a <= b` for the lexicographic `Ord` on `(usize, usize, usize)`
that Rust's `cmp` uses on `CSSSpecifity`. -/
def specLe (a b : CSSSpecifity) : Bool :=
  decide (a.1 < b.1) ||
    (decide (a.1 = b.1) &&
      (decide (a.2.1 < b.2.1) || (decide (a.2.1 = b.2.1) && decide (a.2.2 ≤ b.2.2))))

/-- Stable insertion step for `sortLe`: the inserted element (earlier in the
original list) is placed before any later element comparing equal to it. -/
def insertLe {α : Type} (le : α → α → Bool) (x : α) : List α → List α
  | [] => [x]
  | y :: ys => if le x y then x :: y :: ys else y :: insertLe le x ys

/-- Stable sort by a boolean total preorder, modelling Rust's stable
`slice::sort_by`. -/
def sortLe {α : Type} (le : α → α → Bool) : List α → List α
  | [] => []
  | x :: xs => insertLe le x (sortLe le xs)

/-- A finite map keyed by `CSSProperty`, the extensional model of the
source's `HashMap<CSSProperty, _>` (the key type is a six-value enum, so a
record of six optional slots is the same map). -/
structure PropMap (α : Type) where
  display : Option α := none
  padding : Option α := none
  background : Option α := none
  color : Option α := none
  width : Option α := none
  height : Option α := none
deriving DecidableEq

def PropMap.get {α : Type} (m : PropMap α) : CSSProperty → Option α
  | .Display => m.display
  | .Padding => m.padding
  | .Background => m.background
  | .Color => m.color
  | .Width => m.width
  | .Height => m.height

def PropMap.insert {α : Type} (m : PropMap α) (k : CSSProperty) (v : α) : PropMap α :=
  match k with
  | .Display => { m with display := some v }
  | .Padding => { m with padding := some v }
  | .Background => { m with background := some v }
  | .Color => { m with color := some v }
  | .Width => { m with width := some v }
  | .Height => { m with height := some v }

/-- `PropertyMap` of `style.rs`: `HashMap<CSSProperty, CSSValue>`. -/
abbrev PropertyMap := PropMap CSSValue

/-- `StyledNode` of `style.rs`. -/
inductive StyledNode where
  | mk (node : DomNode) (specified_values : PropertyMap) (children : List StyledNode)

def StyledNode.node : StyledNode → DomNode
  | .mk n _ _ => n

def StyledNode.specified_values : StyledNode → PropertyMap
  | .mk _ v _ => v

def StyledNode.children : StyledNode → List StyledNode
  | .mk _ _ c => c

/-- `Display` of `style.rs`. -/
inductive Display where
  | Block
  | Inline
  | None
deriving DecidableEq

/-- `StyledNode::get_computed_value` of `style.rs`: the explicit specified
value when present, else the property's static default (never absent). -/
def StyledNode.get_computed_value (s : StyledNode) (name : CSSProperty) : Option CSSValue :=
  match s.specified_values.get name with
  | some v => some v
  | none => some name.default_value

/-- `StyledNode::get_computed_display` of `style.rs`: a span tag is Inline
unconditionally; otherwise the computed `display` keyword "inline"/"none"
selects Inline/None and anything else is Block. -/
def StyledNode.get_computed_display (s : StyledNode) : Display :=
  match s.node.get_tag_type with
  | some TagType.span => Display.Inline
  | _ =>
    match s.get_computed_value CSSProperty.Display with
    | some (CSSValue.Keyword v) =>
      if v = "inline" then Display.Inline
      else if v = "none" then Display.None
      else Display.Block
    | _ => Display.Block

/-- `matches_simple_selector` of `style.rs`. -/
def matches_simple_selector (elem : ElementData) (selector : SimpleSelector) : Bool :=
  if selector.tag.any (fun name => elem.tag_type != name) then false
  else if selector.id.any (fun i => elem.id != some i) then false
  else
    let elem_classes := elem.classes
    if selector.classList.any (fun c => !(elem_classes.contains c)) then false
    else true

/-- `matches` of `style.rs` (renamed: `matches` is a Lean term macro). -/
def matchesSelector (node : ElementData) (selector : CSSSelector) : Bool :=
  match selector with
  | .SimpleSelector s => matches_simple_selector node s

/-- `matches_rule` of `style.rs`: the specificities of the matching selectors,
sorted descending (`b.cmp(a)`), first one taken — i.e. the best (highest)
matching specificity, or `none` when no selector matches. -/
def matches_rule (node : ElementData) (rule : CSSRule) : Option CSSSpecifity :=
  let matched_rules :=
    (rule.selectors.filter (fun s => matchesSelector node s)).map CSSSelector.specificity
  (sortLe (fun a b => specLe b a) matched_rules).head?

/-- Body of the declaration loop in `get_specified_values` of `style.rs`:
skip a non-important declaration whose property currently holds an important
entry, otherwise overwrite the value and the important flag. -/
def applyDecl (st : PropertyMap × PropMap Bool) (d : CSSDeclaration) :
    PropertyMap × PropMap Bool :=
  match st.2.get d.property with
  | some b =>
    if !d.is_important && b then st
    else (st.1.insert d.property d.value, st.2.insert d.property d.is_important)
  | none => (st.1.insert d.property d.value, st.2.insert d.property d.is_important)

/-- The rule walk of `get_specified_values` of `style.rs`: fold every
declaration of every matched rule (in sorted order) through `applyDecl`,
starting from two empty maps; the value map is the result. -/
def applyRules (matched_rules : List (CSSSpecifity × CSSRule)) : PropertyMap :=
  (matched_rules.foldl
    (fun st sr => sr.2.declarations.foldl applyDecl st)
    ({}, {})).1

/-- `get_specified_values` of `style.rs`. -/
def get_specified_values (node : DomNode) (stylesheet : Stylesheet) : PropertyMap :=
  match node.node_type with
  | .text _ => {}
  | .element element =>
    match element.tag_type with
    | .style => {}
    | _ =>
      let matched_rules : List (CSSSpecifity × CSSRule) :=
        stylesheet.rules.filterMap
          (fun rule => (matches_rule element rule).map (fun s => (s, rule)))
      applyRules (sortLe (fun a b => specLe a.1 b.1) matched_rules)

mutual

/-- `generate_styled_node` of `style.rs`. -/
def generate_styled_node : DomNode → Stylesheet → StyledNode
  | .mk t cs, stylesheet =>
    .mk (.mk t cs) (get_specified_values (.mk t cs) stylesheet)
      (generate_styled_children cs stylesheet)

def generate_styled_children : List DomNode → Stylesheet → List StyledNode
  | [], _ => []
  | c :: rest, stylesheet =>
    generate_styled_node c stylesheet :: generate_styled_children rest stylesheet

end

/-! ## Layout engine (`layout.rs`) -/

/-- Upper bound of Rust `u32`. -/
def U32_MAX : Nat := 4294967295

/-- Checked `u32` addition: `none` models the overflow panic. -/
def addU32 (a b : Nat) : Option Nat :=
  if a + b ≤ U32_MAX then some (a + b) else none

/-- Checked `u32` subtraction: `none` models the underflow panic. -/
def subU32 (a b : Nat) : Option Nat :=
  if b ≤ a then some (a - b) else none

/-- `EdgeSizes` of `layout.rs` (`u32` fields, zero-initialised by `Default`). -/
structure EdgeSizes where
  left : Nat := 0
  right : Nat := 0
  top : Nat := 0
  bottom : Nat := 0
deriving DecidableEq

/-- `Rect` of `layout.rs`. -/
structure Rect where
  x : Nat := 0
  y : Nat := 0
  width : Nat := 0
  height : Nat := 0
deriving DecidableEq

/-- `Dimensions` of `layout.rs`. -/
structure Dimensions where
  boundingRect : Rect := {}
  padding : EdgeSizes := {}
  content : Rect := {}
deriving DecidableEq

/-- `BoxType` of `layout.rs`. -/
inductive BoxType where
  | Block (s : StyledNode)
  | Inline (s : StyledNode)
  | Anonymous

/-- `LayoutBox` of `layout.rs`. -/
inductive LayoutBox where
  | mk (dimensions : Dimensions) (box_type : BoxType) (children : List LayoutBox)

def LayoutBox.dimensions : LayoutBox → Dimensions
  | .mk d _ _ => d

def LayoutBox.box_type : LayoutBox → BoxType
  | .mk _ b _ => b

def LayoutBox.children : LayoutBox → List LayoutBox
  | .mk _ _ c => c

/-- `LayoutBox::new` of `layout.rs`: default (all-zero) dimensions, no children. -/
def LayoutBox.new (box_type : BoxType) : LayoutBox :=
  .mk {} box_type []

/-- `LayoutBox::get_styled_node` of `layout.rs`; `none` models the panic on
an `Anonymous` box. -/
def LayoutBox.get_styled_node : LayoutBox → Option StyledNode
  | .mk _ (.Block x) _ => some x
  | .mk _ (.Inline x) _ => some x
  | .mk _ .Anonymous _ => none

def LayoutBox.isAnonymous (b : LayoutBox) : Bool :=
  match b.box_type with
  | .Anonymous => true
  | _ => false

/-- Append a child box (`self.children.push(c)`). -/
def addChild (b : LayoutBox) (c : LayoutBox) : LayoutBox :=
  .mk b.dimensions b.box_type (b.children ++ [c])

/-- Apply `f` to the last element of a list, if any. -/
def mapLast {α : Type} (f : α → α) : List α → List α
  | [] => []
  | [x] => [f x]
  | x :: y :: rest => x :: mapLast f (y :: rest)

/-- `LayoutBox::get_inline_container` of `layout.rs`, fused with the
`children.push` its caller performs on the returned container: on an
Inline/Anonymous box the child is pushed onto the box itself; on a Block box
it is pushed onto the last child when that child is an Anonymous box, else
onto a freshly appended empty Anonymous box. -/
def LayoutBox.push_inline (b : LayoutBox) (c : LayoutBox) : LayoutBox :=
  match b.box_type with
  | .Inline _ | .Anonymous => addChild b c
  | .Block _ =>
    let withAnon :=
      match b.children.getLast? with
      | some l => if l.isAnonymous then b else addChild b (LayoutBox.new .Anonymous)
      | none => addChild b (LayoutBox.new .Anonymous)
    .mk withAnon.dimensions withAnon.box_type
      (mapLast (fun l => addChild l c) withAnon.children)

/-- `layout_block_width` of `layout.rs`, as a transform of the box's own
`Dimensions`: panics (`none`) when the computed padding is not a Dimension;
box width is the computed `width` Dimension else the container content width;
content width subtracts the horizontal padding. -/
def layout_block_width (style : StyledNode) (dims container : Dimensions) :
    Option Dimensions := do
  let paddingValue ←
    match style.get_computed_value CSSProperty.Padding with
    | some (CSSValue.Dimension v _) => some v
    | _ => none
  let widthValue ←
    match style.get_computed_value CSSProperty.Width with
    | some (CSSValue.Dimension v _) => some v
    | _ => do
        let w1 ← subU32 container.boundingRect.width container.padding.left
        subU32 w1 container.padding.right
  let dims1 : Dimensions :=
    { dims with
        padding := { dims.padding with left := paddingValue, right := paddingValue },
        boundingRect := { dims.boundingRect with width := widthValue } }
  let c1 ← subU32 widthValue dims1.padding.left
  let contentWidth ← subU32 c1 dims1.padding.right
  return { dims1 with content := { dims1.content with width := contentWidth } }

/-- `layout_block_position` of `layout.rs`: top/bottom padding from the
computed padding Dimension; x = container x + container left padding;
y = container y + container top padding + container content height. -/
def layout_block_position (style : StyledNode) (dims container : Dimensions) :
    Option Dimensions := do
  let paddingValue ←
    match style.get_computed_value CSSProperty.Padding with
    | some (CSSValue.Dimension v _) => some v
    | _ => none
  let dims1 : Dimensions :=
    { dims with padding := { dims.padding with top := paddingValue, bottom := paddingValue } }
  let x ← addU32 container.boundingRect.x container.padding.left
  let y1 ← addU32 container.boundingRect.y container.padding.top
  let y ← addU32 y1 container.content.height
  return { dims1 with boundingRect := { dims1.boundingRect with x := x, y := y } }

/-- `layout_block_height` of `layout.rs`: the computed `height` Dimension if
present, else top padding + accumulated content height + bottom padding. -/
def layout_block_height (style : StyledNode) (dims : Dimensions) : Option Dimensions :=
  match style.get_computed_value CSSProperty.Height with
  | some (CSSValue.Dimension v _) =>
    some { dims with boundingRect := { dims.boundingRect with height := v } }
  | _ => do
    let h1 ← addU32 dims.padding.top dims.content.height
    let h ← addU32 h1 dims.padding.bottom
    return { dims with boundingRect := { dims.boundingRect with height := h } }

mutual

/-- `LayoutBox::layout` of `layout.rs`: Block boxes run the four block
sub-phases; Inline and Anonymous layout is `todo!()` (`none`). -/
def LayoutBox.layout : LayoutBox → Dimensions → Option LayoutBox
  | .mk dims bt children, container =>
    match bt with
    | .Block style => do
        let d1 ← layout_block_width style dims container
        let d2 ← layout_block_position style d1 container
        let (d3, children3) ← layout_block_children children d2
        let d4 ← layout_block_height style d3
        return .mk d4 (.Block style) children3
    | .Inline _ => none
    | .Anonymous => none

/-- `layout_block_children` of `layout.rs`: each child is laid out against
the box's own (threaded) dimensions, whose content height accumulates the
child bounding-rect heights in order. -/
def layout_block_children : List LayoutBox → Dimensions → Option (Dimensions × List LayoutBox)
  | [], dims => some (dims, [])
  | c :: rest, dims => do
      let c1 ← c.layout dims
      let h ← addU32 dims.content.height c1.dimensions.boundingRect.height
      let dims1 : Dimensions := { dims with content := { dims.content with height := h } }
      let (dims2, rest2) ← layout_block_children rest dims1
      return (dims2, c1 :: rest2)

end

mutual

/-- `generate_layout_tree` of `layout.rs`: `none` models the
`panic!("Root has diplay none")` on a root whose computed display is None. -/
def generate_layout_tree : StyledNode → Option LayoutBox
  | .mk n v children => do
    let root ←
      match (StyledNode.mk n v children).get_computed_display with
      | Display.Block => some (LayoutBox.new (BoxType.Block (.mk n v children)))
      | Display.Inline => some (LayoutBox.new (BoxType.Inline (.mk n v children)))
      | Display.None => none
    layout_tree_children root children

/-- The child loop of `generate_layout_tree`: Block children are appended as
direct children, Inline children go to the trailing inline container, None
children are dropped. -/
def layout_tree_children (root : LayoutBox) : List StyledNode → Option LayoutBox
  | [] => some root
  | child :: rest => do
    let root1 ←
      match child.get_computed_display with
      | Display.Block => do
          let sub ← generate_layout_tree child
          some (addChild root sub)
      | Display.Inline => do
          let sub ← generate_layout_tree child
          some (root.push_inline sub)
      | Display.None => some root
    layout_tree_children root1 rest

end

/-! ## Observation helpers

The payload-free shape of a layout box tree (which variant each box is and
how the children nest), and the geometry tree (the `Dimensions` at each box).
These are the observables the claims speak about. -/

/-- The variant of a `BoxType`, without the styled-node payload. -/
inductive BoxKind where
  | block
  | inline
  | anonymous
deriving DecidableEq

def BoxType.kind : BoxType → BoxKind
  | .Block _ => .block
  | .Inline _ => .inline
  | .Anonymous => .anonymous

/-- A layout-box tree reduced to box kinds. -/
inductive Skel where
  | mk (kind : BoxKind) (children : List Skel)

def Skel.kind : Skel → BoxKind
  | .mk k _ => k

def Skel.children : Skel → List Skel
  | .mk _ c => c

mutual

def LayoutBox.skeleton : LayoutBox → Skel
  | .mk _ bt cs => .mk bt.kind (skeletonList cs)

def skeletonList : List LayoutBox → List Skel
  | [] => []
  | c :: rest => c.skeleton :: skeletonList rest

end

/-- A layout-box tree reduced to its geometry. -/
inductive DimTree where
  | mk (dims : Dimensions) (children : List DimTree)

mutual

def LayoutBox.dimTree : LayoutBox → DimTree
  | .mk d _ cs => .mk d (dimTreeList cs)

def dimTreeList : List LayoutBox → List DimTree
  | [] => []
  | c :: rest => c.dimTree :: dimTreeList rest

end

/-- Analogue of `addChild` on skeletons. -/
def skelAddChild (b c : Skel) : Skel :=
  .mk b.kind (b.children ++ [c])

/-- Analogue of `LayoutBox.push_inline` on skeletons. -/
def skelPush (b c : Skel) : Skel :=
  match b.kind with
  | .inline | .anonymous => skelAddChild b c
  | .block =>
    let withAnon :=
      match b.children.getLast? with
      | some l => if l.kind = BoxKind.anonymous then b else skelAddChild b (Skel.mk .anonymous [])
      | none => skelAddChild b (Skel.mk .anonymous [])
    .mk withAnon.kind (mapLast (fun l => skelAddChild l c) withAnon.children)

mutual

/-- Remove, recursively, every child whose computed display is None. -/
def pruneNone : StyledNode → StyledNode
  | .mk n v cs => .mk n v (pruneNoneList cs)

def pruneNoneList : List StyledNode → List StyledNode
  | [] => []
  | c :: rest =>
    if c.get_computed_display = Display.None then pruneNoneList rest
    else pruneNone c :: pruneNoneList rest

end

/-! ## Unit-blindness relation

Two values (trees, maps, boxes) are unit-equal when they agree everywhere
except possibly on the `Unit` tag carried inside `CSSValue.Dimension`. -/

mutual

def DomNode.beq : DomNode → DomNode → Bool
  | .mk t cs, .mk t' cs' => t == t' && DomNode.beqList cs cs'

def DomNode.beqList : List DomNode → List DomNode → Bool
  | [], [] => true
  | c :: r, c' :: r' => DomNode.beq c c' && DomNode.beqList r r'
  | _, _ => false

end

def unitEqValue : CSSValue → CSSValue → Bool
  | .Dimension v _, .Dimension v' _ => v == v'
  | .Keyword s, .Keyword s' => s == s'
  | .Color c, .Color c' => c == c'
  | _, _ => false

def unitEqOptValue : Option CSSValue → Option CSSValue → Bool
  | none, none => true
  | some v, some v' => unitEqValue v v'
  | _, _ => false

def unitEqMap (m m' : PropertyMap) : Bool :=
  unitEqOptValue m.display m'.display &&
  unitEqOptValue m.padding m'.padding &&
  unitEqOptValue m.background m'.background &&
  unitEqOptValue m.color m'.color &&
  unitEqOptValue m.width m'.width &&
  unitEqOptValue m.height m'.height

mutual

def unitEqStyled : StyledNode → StyledNode → Bool
  | .mk n v cs, .mk n' v' cs' =>
    DomNode.beq n n' && unitEqMap v v' && unitEqStyledList cs cs'

def unitEqStyledList : List StyledNode → List StyledNode → Bool
  | [], [] => true
  | c :: r, c' :: r' => unitEqStyled c c' && unitEqStyledList r r'
  | _, _ => false

end

def unitEqBoxType : BoxType → BoxType → Bool
  | .Block s, .Block s' => unitEqStyled s s'
  | .Inline s, .Inline s' => unitEqStyled s s'
  | .Anonymous, .Anonymous => true
  | _, _ => false

mutual

def unitEqBox : LayoutBox → LayoutBox → Bool
  | .mk d bt cs, .mk d' bt' cs' =>
    d == d' && unitEqBoxType bt bt' && unitEqBoxList cs cs'

def unitEqBoxList : List LayoutBox → List LayoutBox → Bool
  | [], [] => true
  | c :: r, c' :: r' => unitEqBox c c' && unitEqBoxList r r'
  | _, _ => false

end

def unitEqOptBox : Option LayoutBox → Option LayoutBox → Bool
  | none, none => true
  | some b, some b' => unitEqBox b b'
  | _, _ => false

def unitEqChildrenResult :
    Option (Dimensions × List LayoutBox) → Option (Dimensions × List LayoutBox) → Bool
  | none, none => true
  | some (d, cs), some (d', cs') => d == d' && unitEqBoxList cs cs'
  | _, _ => false

/-! ## Concrete inputs used by the claims -/

/-- An element node with the given tag, attributes and children. -/
def mkElem (t : TagType) (attrs : List (String × String)) (children : List DomNode) : DomNode :=
  .mk (.element ⟨t, attrs⟩) children

/-- A styled element node with no attributes. -/
def mkStyled (t : TagType) (pm : PropertyMap) (children : List StyledNode) : StyledNode :=
  .mk (mkElem t [] []) pm children

/-- Selector `#id`. -/
def idSelector (i : String) : CSSSelector :=
  .SimpleSelector ⟨none, some i, []⟩

/-- The document `<div id="1"><div id="2"></div></div>` as parsed
(`HTMLParser::parse` wraps the content in an `html` root element). -/
def docRoundTrip : DomNode :=
  mkElem .html [] [mkElem .div [("id", "1")] [mkElem .div [("id", "2")] []]]

/-- The stylesheet `#1 { padding: 20px; } #2 { height: 100px; }`. -/
def sheetRoundTrip : Stylesheet :=
  ⟨[⟨[idSelector "1"], [⟨.Padding, .Dimension 20 .px, false⟩]⟩,
    ⟨[idSelector "2"], [⟨.Height, .Dimension 100 .px, false⟩]⟩]⟩

/-- An 800×600 viewport container, as built in `main.rs`. -/
def container800x600 : Dimensions :=
  { boundingRect := { x := 0, y := 0, width := 800, height := 600 } }

/-- The full pipeline of the round-trip scenario, projected to the
(y, height) of the box generated for the element with `id="2"` (the first
child of the first child of the root box). -/
def roundTripTarget : Option (Nat × Nat) := do
  let styled := generate_styled_node docRoundTrip sheetRoundTrip
  let tree ← generate_layout_tree styled
  let laid ← tree.layout container800x600
  let b1 ← laid.children.head?
  let b2 ← b1.children.head?
  return (b2.dimensions.boundingRect.y, b2.dimensions.boundingRect.height)

/-- A Block box for a plain div with an explicit `height: h px`. -/
def blockOfHeight (h : Nat) : LayoutBox :=
  LayoutBox.new (BoxType.Block (mkStyled .div { height := some (.Dimension h .px) } []))

/-- A zero-padding container of width 800. -/
def containerW800 : Dimensions :=
  { boundingRect := { width := 800 } }

/-- An element resolving `padding: 10px; width: 100px`. -/
def styledPad10Width100 : StyledNode :=
  mkStyled .div { padding := some (.Dimension 10 .px), width := some (.Dimension 100 .px) } []

/-- An element resolving `padding: 20px; width: 10px` (content width underflows). -/
def styledPad20Width10 : StyledNode :=
  mkStyled .div { padding := some (.Dimension 20 .px), width := some (.Dimension 10 .px) } []

/-- A Block div whose children have computed displays Block, Inline, Inline,
Block (plain divs and spans with no declarations). -/
def styledMixedChildren : StyledNode :=
  mkStyled .div {}
    [mkStyled .div {} [], mkStyled .span {} [], mkStyled .span {} [], mkStyled .div {} []]

/-- A span that resolved an explicit `display: none` declaration. -/
def spanDisplayNone : StyledNode :=
  mkStyled .span { display := some (.Keyword "none") } []

/-- The element `<p class="foo">`. -/
def elemPFoo : ElementData := ⟨.p, [("class", "foo")]⟩

def nodePFoo : DomNode := .mk (.element elemPFoo) []

/-- Rule `p { color: red !important; }` — specificity (0,0,1). -/
def ruleTagImportant : CSSRule :=
  ⟨[.SimpleSelector ⟨some .p, none, []⟩], [⟨.Color, .Keyword "red", true⟩]⟩

/-- Rule `.foo { color: blue; }` — specificity (0,1,0). -/
def ruleClassNormal : CSSRule :=
  ⟨[.SimpleSelector ⟨none, none, ["foo"]⟩], [⟨.Color, .Keyword "blue", false⟩]⟩

/-- Rule `p { color: red; }` — specificity (0,0,1), not important. -/
def ruleTagNormal : CSSRule :=
  ⟨[.SimpleSelector ⟨some .p, none, []⟩], [⟨.Color, .Keyword "red", false⟩]⟩

/-- A Block box whose style resolved `padding: 5px; height: 40px`. -/
def boxPxUnits : LayoutBox :=
  LayoutBox.new (BoxType.Block
    (mkStyled .div { padding := some (.Dimension 5 .px), height := some (.Dimension 40 .px) } []))

/-- The same box with every unit flipped to percent. -/
def boxPercentUnits : LayoutBox :=
  LayoutBox.new (BoxType.Block
    (mkStyled .div
      { padding := some (.Dimension 5 .percent), height := some (.Dimension 40 .percent) } []))

/-! ## Helper lemmas -/

theorem PropMap.get_empty {α : Type} (k : CSSProperty) :
    PropMap.get ({} : PropMap α) k = none := by
  cases k <;> rfl

theorem PropMap.get_insert_self {α : Type} (m : PropMap α) (k : CSSProperty) (v : α) :
    (m.insert k v).get k = some v := by
  cases k <;> rfl

theorem PropMap.get_insert_ne {α : Type} (m : PropMap α) (k k' : CSSProperty) (v : α)
    (h : k' ≠ k) : (m.insert k v).get k' = m.get k' := by
  cases k <;> cases k' <;> first | exact absurd rfl h | rfl

theorem get_computed_value_isSome (s : StyledNode) (p : CSSProperty) :
    ∃ v, s.get_computed_value p = some v := by
  unfold StyledNode.get_computed_value
  cases s.specified_values.get p <;> exact ⟨_, rfl⟩

/-! ## Claims -/

/-- **C5.** For every Block box, the width sub-phase sets the box width to the
resolved `width` Dimension's value when present and otherwise to the container
width minus the container's horizontal padding, sets left and right padding to
the resolved `padding` Dimension's value, and sets content width to box width
minus both paddings; concretely, in a container of width 800 with no padding,
`padding: 10px; width: 100px` yields padding 10/10, box width 100, content
width 80. -/
theorem claim_C5_width_phase :
    (∀ (style : StyledNode) (dims container : Dimensions) (p : Nat) (pu : CSSUnit)
        (w : Nat) (wu : CSSUnit),
      style.get_computed_value CSSProperty.Padding = some (CSSValue.Dimension p pu) →
      style.get_computed_value CSSProperty.Width = some (CSSValue.Dimension w wu) →
      p + p ≤ w →
      layout_block_width style dims container = some
        { dims with
            padding := { dims.padding with left := p, right := p },
            boundingRect := { dims.boundingRect with width := w },
            content := { dims.content with width := w - p - p } }) ∧
    (∀ (style : StyledNode) (dims container : Dimensions) (p : Nat) (pu : CSSUnit),
      style.get_computed_value CSSProperty.Padding = some (CSSValue.Dimension p pu) →
      (∀ (w : Nat) (wu : CSSUnit),
        style.get_computed_value CSSProperty.Width ≠ some (CSSValue.Dimension w wu)) →
      container.padding.left + container.padding.right ≤ container.boundingRect.width →
      p + p ≤ container.boundingRect.width - container.padding.left - container.padding.right →
      layout_block_width style dims container = some
        { dims with
            padding := { dims.padding with left := p, right := p },
            boundingRect := { dims.boundingRect with
              width := container.boundingRect.width - container.padding.left -
                container.padding.right },
            content := { dims.content with
              width := container.boundingRect.width - container.padding.left -
                container.padding.right - p - p } }) ∧
    layout_block_width styledPad10Width100 {} containerW800 = some
      { padding := { left := 10, right := 10 },
        boundingRect := { width := 100 },
        content := { width := 80 } } := by
  refine ⟨?_, ?_, ?_⟩
  · intro style dims container p pu w wu hp hw hle
    have h1 : p ≤ w := by omega
    have h2 : p ≤ w - p := by omega
    simp [layout_block_width, hp, hw, subU32, h1, h2]
  · intro style dims container p pu hp hw hc hle
    obtain ⟨v, hv⟩ := get_computed_value_isSome style CSSProperty.Width
    have h1 : container.padding.left ≤ container.boundingRect.width := by omega
    have h2 : container.padding.right ≤
        container.boundingRect.width - container.padding.left := by omega
    have h3 : p ≤ container.boundingRect.width - container.padding.left -
        container.padding.right := by omega
    have h4 : p ≤ container.boundingRect.width - container.padding.left -
        container.padding.right - p := by omega
    cases v with
    | Dimension a b => exact absurd hv (hw a b)
    | Keyword s => simp [layout_block_width, hp, hv, subU32, h1, h2, h3, h4]
    | Color c => simp [layout_block_width, hp, hv, subU32, h1, h2, h3, h4]
  · rfl

/-- Witness for C5: the concrete instance from the spec (800-wide container,
`padding: 10px; width: 100px`). -/
theorem claim_C5_width_phase_witness :
    styledPad10Width100.get_computed_value CSSProperty.Padding =
      some (CSSValue.Dimension 10 .px) ∧
    styledPad10Width100.get_computed_value CSSProperty.Width =
      some (CSSValue.Dimension 100 .px) ∧
    10 + 10 ≤ 100 ∧
    layout_block_width styledPad10Width100 {} containerW800 = some
      { padding := { left := 10, right := 10 },
        boundingRect := { width := 100 },
        content := { width := 80 } } :=
  ⟨rfl, rfl, by omega,
    claim_C5_width_phase.1 styledPad10Width100 {} containerW800 10 .px 100 .px rfl rfl
      (by omega)⟩

/-- **C10.** The content-width subtraction in `layout_block_width` is
performed on unsigned integers with no guard: with a resolved padding `p` and
a declared width `w`, the phase is well-defined exactly when
`p + p ≤ w`; the underflow (error) branch is reachable, e.g. by
`width: 10px; padding: 20px`. -/
theorem claim_C10_width_underflow :
    (∀ (style : StyledNode) (dims container : Dimensions) (p : Nat) (pu : CSSUnit)
        (w : Nat) (wu : CSSUnit),
      style.get_computed_value CSSProperty.Padding = some (CSSValue.Dimension p pu) →
      style.get_computed_value CSSProperty.Width = some (CSSValue.Dimension w wu) →
      ((layout_block_width style dims container).isSome ↔ p + p ≤ w)) ∧
    layout_block_width styledPad20Width10 {} containerW800 = none := by
  constructor
  · intro style dims container p pu w wu hp hw
    simp only [layout_block_width, hp, hw, subU32]
    constructor
    · intro h
      by_contra hc
      rcases Nat.lt_or_ge w p with h1 | h1
      · simp [Nat.not_le.mpr h1] at h
      · have h2 : ¬ p ≤ w - p := by omega
        simp [h1, h2] at h
    · intro h
      have h1 : p ≤ w := by omega
      have h2 : p ≤ w - p := by omega
      simp [h1, h2]
  · rfl

/-- Witness for C10: the concrete `width: 10px; padding: 20px` element. -/
theorem claim_C10_width_underflow_witness :
    styledPad20Width10.get_computed_value CSSProperty.Padding =
      some (CSSValue.Dimension 20 .px) ∧
    styledPad20Width10.get_computed_value CSSProperty.Width =
      some (CSSValue.Dimension 10 .px) ∧
    ((layout_block_width styledPad20Width10 {} containerW800).isSome ↔ 20 + 20 ≤ 10) :=
  ⟨rfl, rfl,
    claim_C10_width_underflow.1 styledPad20Width10 {} containerW800 20 .px 10 .px rfl rfl⟩

/-- **C6.** A Block box is positioned at
x = container x + container left padding and
y = container y + container top padding + container content height so far;
a parent accumulates its content height as the running sum of its children's
bounding-rect heights, in order; concretely, two Block siblings of heights 50
and 30 in a fresh container get y 0 and 50 and leave content height 80. -/
theorem claim_C6_position_stacking :
    (∀ (style : StyledNode) (dims container : Dimensions) (p : Nat) (pu : CSSUnit),
      style.get_computed_value CSSProperty.Padding = some (CSSValue.Dimension p pu) →
      container.boundingRect.x + container.padding.left ≤ U32_MAX →
      container.boundingRect.y + container.padding.top + container.content.height ≤ U32_MAX →
      layout_block_position style dims container = some
        { dims with
            padding := { dims.padding with top := p, bottom := p },
            boundingRect := { dims.boundingRect with
              x := container.boundingRect.x + container.padding.left,
              y := container.boundingRect.y + container.padding.top +
                container.content.height } }) ∧
    (∀ (cs : List LayoutBox) (d d' : Dimensions) (cs' : List LayoutBox),
      layout_block_children cs d = some (d', cs') →
      d'.content.height =
        d.content.height + (cs'.map (fun b => b.dimensions.boundingRect.height)).sum) ∧
    (layout_block_children [blockOfHeight 50, blockOfHeight 30] containerW800).map
        (fun r => (r.1.content.height, r.2.map (fun b => b.dimensions.boundingRect.y))) =
      some (80, [0, 50]) := by
  refine ⟨?_, ?_, ?_⟩
  · intro style dims container p pu hp hx hy
    have h1 : container.boundingRect.y + container.padding.top ≤ U32_MAX := by omega
    simp [layout_block_position, hp, addU32, hx, hy, h1]
  · intro cs
    induction cs with
    | nil =>
      intro d d' cs' h
      simp [layout_block_children] at h
      obtain ⟨h1, h2⟩ := h
      subst h1; subst h2
      simp
    | cons c rest ih =>
      intro d d' cs' h
      rw [layout_block_children] at h
      simp only [Option.bind_eq_bind] at h
      rcases hc : c.layout d with _ | c1 <;> rw [hc] at h
      · simp at h
      · simp only [Option.some_bind'] at h
        rcases ha : addU32 d.content.height c1.dimensions.boundingRect.height with _ | hh <;>
          rw [ha] at h
        · simp at h
        · simp only [Option.some_bind'] at h
          rcases hr : layout_block_children rest
              { d with content := { d.content with height := hh } } with _ | pr <;>
            rw [hr] at h
          · simp at h
          · simp only [Option.some_bind', Option.pure_def, Option.some.injEq] at h
            have hrec := ih { d with content := { d.content with height := hh } }
              pr.1 pr.2 (by simpa using hr)
            simp [addU32, Option.ite_none_right_eq_some] at ha
            rw [Prod.mk.injEq] at h
            obtain ⟨h1, h2⟩ := h
            subst h1
            subst h2
            simp only [List.map_cons, List.sum_cons]
            simp at hrec
            omega
  · rfl

/-- Witness for C6: a plain div (default `padding: 0`) positioned against the
800-wide container. -/
theorem claim_C6_position_stacking_witness :
    (mkStyled .div {} []).get_computed_value CSSProperty.Padding =
      some (CSSValue.Dimension 0 .px) ∧
    containerW800.boundingRect.x + containerW800.padding.left ≤ U32_MAX ∧
    containerW800.boundingRect.y + containerW800.padding.top +
      containerW800.content.height ≤ U32_MAX ∧
    layout_block_position (mkStyled .div {} []) {} containerW800 = some {} :=
  ⟨rfl, by decide, by decide,
    claim_C6_position_stacking.1 (mkStyled .div {} []) {} containerW800 0 .px rfl
      (by decide) (by decide)⟩

/-- **C3.** A styled node whose element tag is span computes display Inline
unconditionally, even when the stylesheet resolved an explicit
`display: none`; for every non-span node the computed display is Inline iff
the computed `display` value is the keyword "inline", None iff it is the
keyword "none", and Block for anything else (including the unset/default
case). -/
theorem claim_C3_display_override :
    (∀ s : StyledNode, s.node.get_tag_type = some TagType.span →
      s.get_computed_display = Display.Inline) ∧
    (∀ s : StyledNode, s.node.get_tag_type ≠ some TagType.span →
      ((s.get_computed_display = Display.Inline ↔
          s.get_computed_value CSSProperty.Display = some (CSSValue.Keyword "inline")) ∧
       (s.get_computed_display = Display.None ↔
          s.get_computed_value CSSProperty.Display = some (CSSValue.Keyword "none")) ∧
       (s.get_computed_value CSSProperty.Display ≠ some (CSSValue.Keyword "inline") →
        s.get_computed_value CSSProperty.Display ≠ some (CSSValue.Keyword "none") →
        s.get_computed_display = Display.Block))) ∧
    spanDisplayNone.get_computed_display = Display.Inline := by
  refine ⟨?_, ?_, rfl⟩
  · intro s h
    rw [StyledNode.get_computed_display, h]
  · intro s h
    obtain ⟨v, hv⟩ := get_computed_value_isSome s CSSProperty.Display
    have hd : s.get_computed_display =
        match s.get_computed_value CSSProperty.Display with
        | some (CSSValue.Keyword v) =>
          if v = "inline" then Display.Inline
          else if v = "none" then Display.None
          else Display.Block
        | _ => Display.Block := by
      rw [StyledNode.get_computed_display]
      rcases ht : s.node.get_tag_type with _ | t
      · rfl
      · cases t <;> first | exact absurd ht h | rfl
    rw [hd, hv]
    cases v with
    | Dimension a b => simp
    | Color c => simp
    | Keyword kw =>
      by_cases h1 : kw = "inline"
      · subst h1; simp
      · by_cases h2 : kw = "none"
        · subst h2; simp
        · simp [h1, h2]

/-- Witness for C3: the span with `display: none` resolves Inline via the
tag override. -/
theorem claim_C3_display_override_witness :
    spanDisplayNone.node.get_tag_type = some TagType.span ∧
    spanDisplayNone.get_computed_display = Display.Inline :=
  ⟨rfl, claim_C3_display_override.1 spanDisplayNone rfl⟩

/-- `applyDecl` leaves both maps unchanged at any other property. -/
theorem applyDecl_get_ne (st : PropertyMap × PropMap Bool) (d : CSSDeclaration)
    (p : CSSProperty) (h : d.property ≠ p) :
    (applyDecl st d).1.get p = st.1.get p ∧ (applyDecl st d).2.get p = st.2.get p := by
  have hne : p ≠ d.property := fun hc => h hc.symm
  unfold applyDecl
  cases hb : st.2.get d.property with
  | none => exact ⟨PropMap.get_insert_ne _ _ _ _ hne, PropMap.get_insert_ne _ _ _ _ hne⟩
  | some b =>
    by_cases hc : (!d.is_important && b) = true
    · simp [hc]
    · simp only [Bool.not_eq_true] at hc
      simp [hc]
      exact ⟨PropMap.get_insert_ne _ _ _ _ hne, PropMap.get_insert_ne _ _ _ _ hne⟩

/-- **C2.** During declaration merging, a non-important declaration leaves
the running entry for its property unchanged whenever the current entry is
marked important; an important declaration always overwrites and records
importance; consequently, over any list of further declarations none of
which is an important declaration for `p`, an important entry at `p` and its
value survive unchanged. -/
theorem claim_C2_important_override :
    (∀ (vals : PropertyMap) (imps : PropMap Bool) (d : CSSDeclaration),
      imps.get d.property = some true → d.is_important = false →
      applyDecl (vals, imps) d = (vals, imps)) ∧
    (∀ (vals : PropertyMap) (imps : PropMap Bool) (d : CSSDeclaration),
      d.is_important = true →
      applyDecl (vals, imps) d =
        (vals.insert d.property d.value, imps.insert d.property true)) ∧
    (∀ (ds : List CSSDeclaration) (vals : PropertyMap) (imps : PropMap Bool)
        (p : CSSProperty),
      imps.get p = some true →
      (∀ d ∈ ds, d.property = p → d.is_important = false) →
      (ds.foldl applyDecl (vals, imps)).1.get p = vals.get p ∧
      (ds.foldl applyDecl (vals, imps)).2.get p = some true) := by
  refine ⟨?_, ?_, ?_⟩
  · intro vals imps d h1 h2
    simp [applyDecl, h1, h2]
  · intro vals imps d h
    cases hb : imps.get d.property with
    | none => simp [applyDecl, hb, h]
    | some b => simp [applyDecl, hb, h]
  · intro ds
    induction ds with
    | nil => intro vals imps p hp _; exact ⟨rfl, hp⟩
    | cons d rest ih =>
      intro vals imps p hp hforall
      simp only [List.foldl_cons]
      by_cases hdp : d.property = p
      · have himp : d.is_important = false := hforall d (by simp) hdp
        have hskip : applyDecl (vals, imps) d = (vals, imps) := by
          simp [applyDecl, hdp, hp, himp]
        rw [hskip]
        exact ih vals imps p hp (fun d' hd' => hforall d' (by simp [hd']))
      · obtain ⟨e1, e2⟩ := applyDecl_get_ne (vals, imps) d p hdp
        have hrec := ih (applyDecl (vals, imps) d).1 (applyDecl (vals, imps) d).2 p
          (by rw [e2]; exact hp) (fun d' hd' => hforall d' (by simp [hd']))
        constructor
        · rw [← e1]
          simpa using hrec.1
        · simpa using hrec.2

/-- Witness for C2: an important `color` entry survives a non-important
declaration for the same property. -/
theorem claim_C2_important_override_witness :
    (PropMap.insert {} CSSProperty.Color true).get
        (⟨CSSProperty.Color, CSSValue.Keyword "blue", false⟩ : CSSDeclaration).property =
      some true ∧
    (⟨CSSProperty.Color, CSSValue.Keyword "blue", false⟩ : CSSDeclaration).is_important =
      false ∧
    applyDecl (PropMap.insert {} CSSProperty.Color (CSSValue.Keyword "red"),
        PropMap.insert {} CSSProperty.Color true)
      ⟨CSSProperty.Color, CSSValue.Keyword "blue", false⟩ =
      (PropMap.insert {} CSSProperty.Color (CSSValue.Keyword "red"),
        PropMap.insert {} CSSProperty.Color true) :=
  ⟨rfl, rfl,
    claim_C2_important_override.1
      (PropMap.insert {} CSSProperty.Color (CSSValue.Keyword "red"))
      (PropMap.insert {} CSSProperty.Color true)
      ⟨CSSProperty.Color, CSSValue.Keyword "blue", false⟩ rfl rfl⟩

theorem specLe_refl (a : CSSSpecifity) : specLe a a = true := by
  simp [specLe]

theorem specLe_false_true (a b : CSSSpecifity) (h : specLe a b = false) :
    specLe b a = true := by
  simp [specLe] at h ⊢
  omega

/-- On a non-style element node, `get_specified_values` is the sorted-match
cascade walk. -/
theorem get_specified_values_element (e : ElementData) (cs : List DomNode)
    (sheet : Stylesheet) (h : e.tag_type ≠ TagType.style) :
    get_specified_values (.mk (.element e) cs) sheet =
      applyRules (sortLe (fun a b => specLe a.1 b.1)
        (sheet.rules.filterMap
          (fun rule => (matches_rule e rule).map (fun s => (s, rule))))) := by
  unfold get_specified_values
  simp only [DomNode.node_type]

/-- **C1, counterexample.** The claim says a declaration from a
higher-specificity match always wins regardless of declaration order; but
with `p { color: red !important; }` (specificity (0,0,1)) against
`.foo { color: blue; }` (specificity (0,1,0)) on `<p class="foo">`, the
resolved color is red in both rule orders, although the blue declaration
comes from the strictly higher-specificity match. -/
theorem claim_C1_counterexample :
    matches_rule elemPFoo ruleClassNormal = some (0, 1, 0) ∧
    matches_rule elemPFoo ruleTagImportant = some (0, 0, 1) ∧
    specLe (0, 1, 0) (0, 0, 1) = false ∧
    (get_specified_values nodePFoo ⟨[ruleTagImportant, ruleClassNormal]⟩).get
        CSSProperty.Color = some (CSSValue.Keyword "red") ∧
    (get_specified_values nodePFoo ⟨[ruleClassNormal, ruleTagImportant]⟩).get
        CSSProperty.Color = some (CSSValue.Keyword "red") ∧
    CSSValue.Keyword "red" ≠ CSSValue.Keyword "blue" := by
  decide

/-- **C1 (amended).** The resolver pairs each rule with its best matching
specificity, sorts ascending with ties in rule order, and applies
declarations in that order; hence for two matching single-declaration rules
on the same property, the higher-specificity declaration wins regardless of
declaration order — provided the lower-specificity declaration is not
`!important` while the higher one is non-important — and at equal
specificity the later-declared rule wins — provided the earlier declaration
is not `!important` while the later one is non-important. -/
theorem claim_C1_amended_cascade :
    ∀ (e : ElementData) (cs : List DomNode) (rHi rLo : CSSRule)
      (sHi sLo : CSSSpecifity) (prop : CSSProperty) (vHi vLo : CSSValue) (iHi iLo : Bool),
      e.tag_type ≠ TagType.style →
      matches_rule e rHi = some sHi →
      matches_rule e rLo = some sLo →
      rHi.declarations = [⟨prop, vHi, iHi⟩] →
      rLo.declarations = [⟨prop, vLo, iLo⟩] →
      ((specLe sHi sLo = false → (iLo = false ∨ iHi = true) →
        ((get_specified_values (.mk (.element e) cs) ⟨[rHi, rLo]⟩).get prop = some vHi ∧
         (get_specified_values (.mk (.element e) cs) ⟨[rLo, rHi]⟩).get prop = some vHi)) ∧
       (sHi = sLo → (iHi = false ∨ iLo = true) →
        (get_specified_values (.mk (.element e) cs) ⟨[rHi, rLo]⟩).get prop = some vLo)) := by
  intro e cs rHi rLo sHi sLo prop vHi vLo iHi iLo hstyle hmHi hmLo hdHi hdLo
  constructor
  · intro hlt himp
    have hge : specLe sLo sHi = true := specLe_false_true _ _ hlt
    constructor
    · rw [get_specified_values_element e cs _ hstyle]
      simp only [List.filterMap_cons, List.filterMap_nil, hmHi, hmLo, Option.map_some']
      simp only [sortLe, insertLe, hlt]
      rcases himp with h | h <;> subst h <;>
        simp [applyRules, applyDecl, hdHi, hdLo, PropMap.get_empty,
          PropMap.get_insert_self]
    · rw [get_specified_values_element e cs _ hstyle]
      simp only [List.filterMap_cons, List.filterMap_nil, hmHi, hmLo, Option.map_some']
      simp only [sortLe, insertLe, hge]
      rcases himp with h | h <;> subst h <;>
        simp [applyRules, applyDecl, hdHi, hdLo, PropMap.get_empty,
          PropMap.get_insert_self]
  · intro heq himp
    subst heq
    rw [get_specified_values_element e cs _ hstyle]
    simp only [List.filterMap_cons, List.filterMap_nil, hmHi, hmLo, Option.map_some']
    simp only [sortLe, insertLe, specLe_refl]
    rcases himp with h | h <;> subst h <;>
      simp [applyRules, applyDecl, hdHi, hdLo, PropMap.get_empty,
        PropMap.get_insert_self]

/-- Witness for C1 (amended): `p { color: red; }` versus
`.foo { color: blue; }` on `<p class="foo">` — blue (the higher specificity)
wins in both orders. -/
theorem claim_C1_amended_cascade_witness :
    elemPFoo.tag_type ≠ TagType.style ∧
    matches_rule elemPFoo ruleClassNormal = some (0, 1, 0) ∧
    matches_rule elemPFoo ruleTagNormal = some (0, 0, 1) ∧
    specLe (0, 1, 0) (0, 0, 1) = false ∧
    ((get_specified_values nodePFoo ⟨[ruleClassNormal, ruleTagNormal]⟩).get
        CSSProperty.Color = some (CSSValue.Keyword "blue") ∧
     (get_specified_values nodePFoo ⟨[ruleTagNormal, ruleClassNormal]⟩).get
        CSSProperty.Color = some (CSSValue.Keyword "blue")) :=
  ⟨by decide, by decide, by decide, by decide,
    (claim_C1_amended_cascade elemPFoo [] ruleClassNormal ruleTagNormal
        (0, 1, 0) (0, 0, 1) CSSProperty.Color (CSSValue.Keyword "blue")
        (CSSValue.Keyword "red") false false
        (by decide) (by decide) (by decide) rfl rfl).1 (by decide) (Or.inl rfl)⟩

/-- **C7.** After layout, a Block box's bounding height is the resolved
`height` Dimension's value when present, and otherwise
top padding + accumulated content height + bottom padding; the round-trip
document `<div id="1"><div id="2"></div></div>` with stylesheet
`#1 { padding: 20px; } #2 { height: 100px; }` in an 800×600 container yields
the box for id 2 at y = 20 with height 100. -/
theorem claim_C7_height_roundtrip :
    (∀ (style : StyledNode) (dims : Dimensions) (v : Nat) (u : CSSUnit),
      style.get_computed_value CSSProperty.Height = some (CSSValue.Dimension v u) →
      layout_block_height style dims = some
        { dims with boundingRect := { dims.boundingRect with height := v } }) ∧
    (∀ (style : StyledNode) (dims : Dimensions),
      (∀ (v : Nat) (u : CSSUnit),
        style.get_computed_value CSSProperty.Height ≠ some (CSSValue.Dimension v u)) →
      dims.padding.top + dims.content.height + dims.padding.bottom ≤ U32_MAX →
      layout_block_height style dims = some
        { dims with boundingRect := { dims.boundingRect with
            height := dims.padding.top + dims.content.height + dims.padding.bottom } }) ∧
    roundTripTarget = some (20, 100) := by
  refine ⟨?_, ?_, rfl⟩
  · intro style dims v u h
    simp [layout_block_height, h]
  · intro style dims h hb
    obtain ⟨v, hv⟩ := get_computed_value_isSome style CSSProperty.Height
    have h1 : dims.padding.top + dims.content.height ≤ U32_MAX := by omega
    cases v with
    | Dimension a b => exact absurd hv (h a b)
    | Keyword s => simp [layout_block_height, hv, addU32, h1, hb]
    | Color c => simp [layout_block_height, hv, addU32, h1, hb]

/-- Witness for C7: `height: 50px` forces bounding height 50. -/
theorem claim_C7_height_roundtrip_witness :
    (mkStyled .div { height := some (.Dimension 50 .px) } []).get_computed_value
        CSSProperty.Height = some (CSSValue.Dimension 50 .px) ∧
    layout_block_height (mkStyled .div { height := some (.Dimension 50 .px) } []) {} =
      some { boundingRect := { height := 50 } } :=
  ⟨rfl,
    claim_C7_height_roundtrip.1 (mkStyled .div { height := some (.Dimension 50 .px) } [])
      {} 50 .px rfl⟩

theorem mapLast_append {α : Type} (f : α → α) (xs : List α) (x : α) :
    mapLast f (xs ++ [x]) = xs ++ [f x] := by
  induction xs with
  | nil => rfl
  | cons y ys ih =>
    cases ys with
    | nil => rfl
    | cons z zs => simpa [mapLast] using ih

/-- **C4.** A Block parent whose children have computed displays
[Block, Inline, Inline, Block] produces exactly the children
[Block, Anonymous [Inline, Inline], Block]; in general an Inline child is
pushed onto the box itself when the box is Inline or Anonymous, onto the
last child when the box is a Block whose last child is an Anonymous box, and
otherwise onto a freshly appended empty Anonymous box. -/
theorem claim_C4_inline_grouping :
    ((generate_layout_tree styledMixedChildren).map LayoutBox.skeleton =
      some (Skel.mk .block
        [Skel.mk .block [],
         Skel.mk .anonymous [Skel.mk .inline [], Skel.mk .inline []],
         Skel.mk .block []])) ∧
    (∀ (b c : LayoutBox),
      ((∃ s, b.box_type = BoxType.Inline s) ∨ b.box_type = BoxType.Anonymous →
        b.push_inline c = addChild b c) ∧
      (∀ (s : StyledNode) (front : List LayoutBox) (l : LayoutBox),
        b.box_type = BoxType.Block s → b.children = front ++ [l] →
        l.isAnonymous = true →
        (b.push_inline c).children = front ++ [addChild l c]) ∧
      (∀ s : StyledNode,
        b.box_type = BoxType.Block s →
        (∀ l, b.children.getLast? = some l → l.isAnonymous = false) →
        (b.push_inline c).children =
          b.children ++ [LayoutBox.mk {} BoxType.Anonymous [c]])) := by
  refine ⟨rfl, ?_⟩
  intro b c
  refine ⟨?_, ?_, ?_⟩
  · rintro (⟨s, hs⟩ | hs) <;> rw [LayoutBox.push_inline, hs]
  · intro s front l hb hch hanon
    rw [LayoutBox.push_inline, hb]
    have hlast : b.children.getLast? = some l := by
      rw [hch, List.getLast?_concat]
    rw [hlast]
    dsimp only
    rw [hanon, if_pos rfl]
    show mapLast (fun l => addChild l c) b.children = front ++ [addChild l c]
    rw [hch, mapLast_append]
  · intro s hb hnone
    rw [LayoutBox.push_inline, hb]
    cases hlast : b.children.getLast? with
    | none =>
      dsimp only
      show mapLast (fun l => addChild l c)
          (b.children ++ [LayoutBox.new BoxType.Anonymous]) =
        b.children ++ [LayoutBox.mk {} BoxType.Anonymous [c]]
      rw [mapLast_append]
      rfl
    | some l =>
      dsimp only
      rw [hnone l hlast]
      simp only [Bool.false_eq_true, if_false]
      show mapLast (fun l => addChild l c)
          (b.children ++ [LayoutBox.new BoxType.Anonymous]) =
        b.children ++ [LayoutBox.mk {} BoxType.Anonymous [c]]
      rw [mapLast_append]
      rfl

theorem skeletonList_eq_map (cs : List LayoutBox) :
    skeletonList cs = cs.map LayoutBox.skeleton := by
  induction cs with
  | nil => rfl
  | cons c rest ih => rw [skeletonList, ih, List.map_cons]

theorem skeleton_mk (d : Dimensions) (bt : BoxType) (cs : List LayoutBox) :
    (LayoutBox.mk d bt cs).skeleton = Skel.mk bt.kind (cs.map LayoutBox.skeleton) := by
  rw [LayoutBox.skeleton, skeletonList_eq_map]

theorem skeleton_addChild (b c : LayoutBox) :
    (addChild b c).skeleton = skelAddChild b.skeleton c.skeleton := by
  cases b with
  | mk d bt cs =>
    show (LayoutBox.mk d bt (cs ++ [c])).skeleton = _
    rw [skeleton_mk, skeleton_mk, skelAddChild, List.map_append]
    rfl

theorem isAnonymous_eq_kind (l : LayoutBox) :
    l.isAnonymous = decide (l.skeleton.kind = BoxKind.anonymous) := by
  cases l with
  | mk d bt cs => cases bt <;> rfl

theorem map_mapLast {α β : Type} (f : α → α) (g : β → β) (m : α → β)
    (h : ∀ x, m (f x) = g (m x)) (l : List α) :
    (mapLast f l).map m = mapLast g (l.map m) := by
  induction l with
  | nil => rfl
  | cons x xs ih =>
    cases xs with
    | nil => simp [mapLast, h]
    | cons y ys =>
      rw [show mapLast f (x :: y :: ys) = x :: mapLast f (y :: ys) from rfl,
        List.map_cons, ih, List.map_cons]
      rfl

theorem skeleton_push (b c : LayoutBox) :
    (b.push_inline c).skeleton = skelPush b.skeleton c.skeleton := by
  cases b with
  | mk d bt cs =>
    cases bt with
    | Inline s =>
      rw [LayoutBox.push_inline]
      dsimp only [LayoutBox.box_type]
      rw [skeleton_addChild]
      rfl
    | Anonymous =>
      rw [LayoutBox.push_inline]
      dsimp only [LayoutBox.box_type]
      rw [skeleton_addChild]
      rfl
    | Block s =>
      have hmaps := map_mapLast (fun l => addChild l c)
        (fun sk => skelAddChild sk c.skeleton) LayoutBox.skeleton
        (fun x => skeleton_addChild x c) cs
      rw [LayoutBox.push_inline]
      dsimp only [LayoutBox.box_type, LayoutBox.children, LayoutBox.dimensions]
      rw [show (LayoutBox.mk d (BoxType.Block s) cs).skeleton =
            Skel.mk BoxKind.block (cs.map LayoutBox.skeleton) from skeleton_mk ..]
      rw [skelPush]
      dsimp only [Skel.kind, Skel.children]
      rw [List.getLast?_map]
      cases hlast : cs.getLast? with
      | none =>
        simp [skeleton_mk, skelAddChild, Skel.kind, Skel.children, addChild,
          LayoutBox.new, LayoutBox.children, LayoutBox.box_type, LayoutBox.dimensions,
          mapLast_append, List.map_append, BoxType.kind, skeleton_addChild]
      | some l =>
        simp only [Option.map_some']
        rw [isAnonymous_eq_kind]
        rcases hsk : l.skeleton with ⟨k, kcs⟩
        dsimp only [Skel.kind, Skel.children]
        by_cases hk : k = BoxKind.anonymous
        · subst hk
          simp only [decide_True, if_pos rfl, if_true]
          rw [skeleton_mk]
          dsimp only [LayoutBox.children, LayoutBox.box_type, BoxType.kind]
          rw [hmaps]
        · simp only [if_neg hk, decide_eq_true_eq]
          simp [skeleton_mk, skelAddChild, Skel.kind, Skel.children, addChild,
            LayoutBox.new, LayoutBox.children, LayoutBox.box_type, LayoutBox.dimensions,
            mapLast_append, List.map_append, BoxType.kind, skeleton_addChild, hk]

theorem pruneNone_display (s : StyledNode) :
    (pruneNone s).get_computed_display = s.get_computed_display := by
  cases s with
  | mk n v cs => rfl

mutual

theorem generate_layout_tree_isSome (s : StyledNode)
    (h : s.get_computed_display ≠ Display.None) :
    ∃ b, generate_layout_tree s = some b := by
  cases s with
  | mk n v cs =>
    rw [generate_layout_tree]
    cases hd : (StyledNode.mk n v cs).get_computed_display with
    | None => exact absurd hd h
    | Block =>
      simp only [Option.bind_eq_bind, Option.some_bind']
      exact layout_tree_children_isSome cs _
    | Inline =>
      simp only [Option.bind_eq_bind, Option.some_bind']
      exact layout_tree_children_isSome cs _

theorem layout_tree_children_isSome (cs : List StyledNode) (root : LayoutBox) :
    ∃ b, layout_tree_children root cs = some b := by
  cases cs with
  | nil => exact ⟨root, rfl⟩
  | cons c rest =>
    rw [layout_tree_children]
    cases hd : c.get_computed_display with
    | None =>
      simp only [Option.bind_eq_bind, Option.some_bind']
      exact layout_tree_children_isSome rest root
    | Block =>
      obtain ⟨sub, hsub⟩ := generate_layout_tree_isSome c (by rw [hd]; simp)
      rw [hsub]
      simp only [Option.bind_eq_bind, Option.some_bind']
      exact layout_tree_children_isSome rest (addChild root sub)
    | Inline =>
      obtain ⟨sub, hsub⟩ := generate_layout_tree_isSome c (by rw [hd]; simp)
      rw [hsub]
      simp only [Option.bind_eq_bind, Option.some_bind']
      exact layout_tree_children_isSome rest (root.push_inline sub)

end

mutual

theorem generate_layout_tree_prune (s : StyledNode) :
    (generate_layout_tree s).map LayoutBox.skeleton =
      (generate_layout_tree (pruneNone s)).map LayoutBox.skeleton := by
  cases s with
  | mk n v cs =>
    rw [show pruneNone (.mk n v cs) = .mk n v (pruneNoneList cs) from rfl]
    rw [generate_layout_tree, generate_layout_tree]
    rw [show (StyledNode.mk n v (pruneNoneList cs)).get_computed_display =
      (StyledNode.mk n v cs).get_computed_display from rfl]
    cases hdisp : (StyledNode.mk n v cs).get_computed_display with
    | None => rfl
    | Block =>
      simp only [Option.bind_eq_bind, Option.some_bind']
      exact layout_tree_children_prune cs _ _ rfl
    | Inline =>
      simp only [Option.bind_eq_bind, Option.some_bind']
      exact layout_tree_children_prune cs _ _ rfl

theorem layout_tree_children_prune (cs : List StyledNode) (root root' : LayoutBox)
    (h : root.skeleton = root'.skeleton) :
    (layout_tree_children root cs).map LayoutBox.skeleton =
      (layout_tree_children root' (pruneNoneList cs)).map LayoutBox.skeleton := by
  cases cs with
  | nil => simp [layout_tree_children, h]
  | cons c rest =>
    rw [layout_tree_children]
    cases hd : c.get_computed_display with
    | None =>
      rw [show pruneNoneList (c :: rest) = pruneNoneList rest by
        rw [pruneNoneList]; simp [hd]]
      simp only [Option.bind_eq_bind, Option.some_bind']
      exact layout_tree_children_prune rest root root' h
    | Block =>
      rw [show pruneNoneList (c :: rest) = pruneNone c :: pruneNoneList rest by
        rw [pruneNoneList]; simp [hd]]
      rw [layout_tree_children]
      rw [show (pruneNone c).get_computed_display = Display.Block by
        rw [pruneNone_display, hd]]
      obtain ⟨sub, hsub⟩ := generate_layout_tree_isSome c (by rw [hd]; simp)
      obtain ⟨sub', hsub'⟩ := generate_layout_tree_isSome (pruneNone c)
        (by rw [pruneNone_display, hd]; simp)
      have hskel : sub.skeleton = sub'.skeleton := by
        have hx := generate_layout_tree_prune c
        rw [hsub, hsub'] at hx
        simpa using hx
      rw [hsub, hsub']
      simp only [Option.bind_eq_bind, Option.some_bind']
      exact layout_tree_children_prune rest (addChild root sub) (addChild root' sub')
        (by rw [skeleton_addChild, skeleton_addChild, h, hskel])
    | Inline =>
      rw [show pruneNoneList (c :: rest) = pruneNone c :: pruneNoneList rest by
        rw [pruneNoneList]; simp [hd]]
      rw [layout_tree_children]
      rw [show (pruneNone c).get_computed_display = Display.Inline by
        rw [pruneNone_display, hd]]
      obtain ⟨sub, hsub⟩ := generate_layout_tree_isSome c (by rw [hd]; simp)
      obtain ⟨sub', hsub'⟩ := generate_layout_tree_isSome (pruneNone c)
        (by rw [pruneNone_display, hd]; simp)
      have hskel : sub.skeleton = sub'.skeleton := by
        have hx := generate_layout_tree_prune c
        rw [hsub, hsub'] at hx
        simpa using hx
      rw [hsub, hsub']
      simp only [Option.bind_eq_bind, Option.some_bind']
      exact layout_tree_children_prune rest (root.push_inline sub) (root'.push_inline sub')
        (by rw [skeleton_push, skeleton_push, h, hskel])

end

/-- **C8.** A `display: none` at the root of `generate_layout_tree` is the
fatal (panic) condition; and a child (anywhere in the styled tree) whose
computed display is None contributes no layout boxes: removing every
None-display child recursively leaves the generated box tree's shape
unchanged. -/
theorem claim_C8_display_none :
    (∀ s : StyledNode, s.get_computed_display = Display.None →
      generate_layout_tree s = none) ∧
    (∀ s : StyledNode,
      (generate_layout_tree s).map LayoutBox.skeleton =
        (generate_layout_tree (pruneNone s)).map LayoutBox.skeleton) := by
  constructor
  · intro s h
    cases s with
    | mk n v cs =>
      rw [generate_layout_tree, h]
      rfl
  · exact generate_layout_tree_prune

/-- Witness for C8: a div that resolved `display: none` is a fatal root. -/
theorem claim_C8_display_none_witness :
    (mkStyled .div { display := some (.Keyword "none") } []).get_computed_display =
      Display.None ∧
    generate_layout_tree (mkStyled .div { display := some (.Keyword "none") } []) =
      none :=
  ⟨rfl, claim_C8_display_none.1 (mkStyled .div { display := some (.Keyword "none") } []) rfl⟩

theorem unitEqValue_refl (v : CSSValue) : unitEqValue v v = true := by
  cases v <;> simp [unitEqValue]

theorem unitEqMap_get (m m' : PropertyMap) (h : unitEqMap m m' = true)
    (p : CSSProperty) : unitEqOptValue (m.get p) (m'.get p) = true := by
  simp only [unitEqMap, Bool.and_eq_true] at h
  obtain ⟨⟨⟨⟨⟨h1, h2⟩, h3⟩, h4⟩, h5⟩, h6⟩ := h
  cases p <;> assumption

theorem get_computed_value_unitEq (s s' : StyledNode) (h : unitEqStyled s s' = true)
    (p : CSSProperty) :
    unitEqOptValue (s.get_computed_value p) (s'.get_computed_value p) = true := by
  cases s with
  | mk n v cs =>
    cases s' with
    | mk n' v' cs' =>
      rw [unitEqStyled] at h
      simp only [Bool.and_eq_true] at h
      have hm := unitEqMap_get v v' h.1.2 p
      rw [StyledNode.get_computed_value, StyledNode.get_computed_value]
      dsimp only [StyledNode.specified_values]
      cases hg : PropMap.get v p <;> cases hg' : PropMap.get v' p <;>
        rw [hg, hg'] at hm <;> simp [unitEqOptValue] at hm ⊢
      · exact unitEqValue_refl _
      · exact hm

theorem layout_block_width_unitEq (s s' : StyledNode) (h : unitEqStyled s s' = true)
    (dims container : Dimensions) :
    layout_block_width s dims container = layout_block_width s' dims container := by
  have hp := get_computed_value_unitEq s s' h CSSProperty.Padding
  have hw := get_computed_value_unitEq s s' h CSSProperty.Width
  rcases hps : s.get_computed_value CSSProperty.Padding with _ | v <;>
    rcases hps' : s'.get_computed_value CSSProperty.Padding with _ | v' <;>
    rw [hps, hps'] at hp <;> simp only [unitEqOptValue] at hp
  · simp [layout_block_width, hps, hps']
  · exact absurd hp (by simp)
  · exact absurd hp (by simp)
  · cases v <;> cases v' <;>
      simp only [unitEqValue, Bool.false_eq_true, beq_iff_eq] at hp
    · subst hp
      rcases hws : s.get_computed_value CSSProperty.Width with _ | w <;>
        rcases hws' : s'.get_computed_value CSSProperty.Width with _ | w' <;>
        rw [hws, hws'] at hw <;> simp only [unitEqOptValue] at hw
      · simp [layout_block_width, hps, hps', hws, hws']
      · exact absurd hw (by simp)
      · exact absurd hw (by simp)
      · cases w <;> cases w' <;>
          simp only [unitEqValue, Bool.false_eq_true, beq_iff_eq] at hw
        · subst hw
          simp [layout_block_width, hps, hps', hws, hws']
        · simp [layout_block_width, hps, hps', hws, hws']
        · simp [layout_block_width, hps, hps', hws, hws']
    · simp [layout_block_width, hps, hps']
    · simp [layout_block_width, hps, hps']

theorem layout_block_position_unitEq (s s' : StyledNode) (h : unitEqStyled s s' = true)
    (dims container : Dimensions) :
    layout_block_position s dims container = layout_block_position s' dims container := by
  have hp := get_computed_value_unitEq s s' h CSSProperty.Padding
  rcases hps : s.get_computed_value CSSProperty.Padding with _ | v <;>
    rcases hps' : s'.get_computed_value CSSProperty.Padding with _ | v' <;>
    rw [hps, hps'] at hp <;> simp only [unitEqOptValue] at hp
  · simp [layout_block_position, hps, hps']
  · exact absurd hp (by simp)
  · exact absurd hp (by simp)
  · cases v <;> cases v' <;>
      simp only [unitEqValue, Bool.false_eq_true, beq_iff_eq] at hp
    · subst hp
      simp [layout_block_position, hps, hps']
    · simp [layout_block_position, hps, hps']
    · simp [layout_block_position, hps, hps']

theorem layout_block_height_unitEq (s s' : StyledNode) (h : unitEqStyled s s' = true)
    (dims : Dimensions) :
    layout_block_height s dims = layout_block_height s' dims := by
  have hp := get_computed_value_unitEq s s' h CSSProperty.Height
  rcases hps : s.get_computed_value CSSProperty.Height with _ | v <;>
    rcases hps' : s'.get_computed_value CSSProperty.Height with _ | v' <;>
    rw [hps, hps'] at hp <;> simp only [unitEqOptValue] at hp
  · simp [layout_block_height, hps, hps']
  · exact absurd hp (by simp)
  · exact absurd hp (by simp)
  · cases v <;> cases v' <;>
      simp only [unitEqValue, Bool.false_eq_true, beq_iff_eq] at hp
    · subst hp
      simp [layout_block_height, hps, hps']
    · simp [layout_block_height, hps, hps']
    · simp [layout_block_height, hps, hps']

theorem unitEqBox_parts (d d' : Dimensions) (bt bt' : BoxType)
    (cs cs' : List LayoutBox)
    (h : unitEqBox (.mk d bt cs) (.mk d' bt' cs') = true) :
    d = d' ∧ unitEqBoxType bt bt' = true ∧ unitEqBoxList cs cs' = true := by
  rw [unitEqBox] at h
  simp only [Bool.and_eq_true, beq_iff_eq] at h
  exact ⟨h.1.1, h.1.2, h.2⟩

theorem unitEqBox_dimensions (b b' : LayoutBox) (h : unitEqBox b b' = true) :
    b.dimensions = b'.dimensions := by
  cases b with
  | mk d bt cs =>
    cases b' with
    | mk d' bt' cs' =>
      exact (unitEqBox_parts d d' bt bt' cs cs' h).1

mutual

theorem layout_unitEq (b b' : LayoutBox) (c : Dimensions)
    (h : unitEqBox b b' = true) :
    unitEqOptBox (b.layout c) (b'.layout c) = true := by
  cases b with
  | mk d bt cs =>
    cases b' with
    | mk d' bt' cs' =>
      obtain ⟨hd, hbt, hcs⟩ := unitEqBox_parts d d' bt bt' cs cs' h
      subst hd
      cases bt with
      | Anonymous =>
        cases bt' with
        | Anonymous => rfl
        | Block s => simp [unitEqBoxType] at hbt
        | Inline s => simp [unitEqBoxType] at hbt
      | Inline s =>
        cases bt' with
        | Inline s' => rfl
        | Block s' => simp [unitEqBoxType] at hbt
        | Anonymous => simp [unitEqBoxType] at hbt
      | Block s =>
        cases bt' with
        | Inline s' => simp [unitEqBoxType] at hbt
        | Anonymous => simp [unitEqBoxType] at hbt
        | Block s' =>
          have hss : unitEqStyled s s' = true := by
            simpa [unitEqBoxType] using hbt
          rw [LayoutBox.layout, LayoutBox.layout]
          dsimp only
          rw [layout_block_width_unitEq s s' hss d c]
          cases h1 : layout_block_width s' d c with
          | none => rfl
          | some d1 =>
            simp only [Option.bind_eq_bind, Option.some_bind']
            rw [layout_block_position_unitEq s s' hss d1 c]
            cases h2 : layout_block_position s' d1 c with
            | none => rfl
            | some d2 =>
              simp only [Option.some_bind']
              have hch := layout_block_children_unitEq cs cs' d2 hcs
              cases h3 : layout_block_children cs d2 with
              | none =>
                cases h3' : layout_block_children cs' d2 with
                | none => rfl
                | some pr =>
                  rw [h3, h3'] at hch
                  simp [unitEqChildrenResult] at hch
              | some pr =>
                cases h3' : layout_block_children cs' d2 with
                | none =>
                  rw [h3, h3'] at hch
                  simp [unitEqChildrenResult] at hch
                | some pr' =>
                  rw [h3, h3'] at hch
                  obtain ⟨pd, pcs⟩ := pr
                  obtain ⟨pd', pcs'⟩ := pr'
                  simp only [unitEqChildrenResult, Bool.and_eq_true, beq_iff_eq] at hch
                  obtain ⟨hpd, hpcs⟩ := hch
                  subst hpd
                  simp only [Option.some_bind']
                  rw [layout_block_height_unitEq s s' hss pd]
                  cases h4 : layout_block_height s' pd with
                  | none => rfl
                  | some d4 =>
                    simp only [Option.some_bind', Option.pure_def]
                    simp [unitEqOptBox, unitEqBox, hss, hpcs, unitEqBoxType]

theorem layout_block_children_unitEq (cs cs' : List LayoutBox) (d : Dimensions)
    (h : unitEqBoxList cs cs' = true) :
    unitEqChildrenResult (layout_block_children cs d)
      (layout_block_children cs' d) = true := by
  cases cs with
  | nil =>
    cases cs' with
    | nil => simp [layout_block_children, unitEqChildrenResult, unitEqBoxList]
    | cons c2 rest2 => simp [unitEqBoxList] at h
  | cons c rest =>
    cases cs' with
    | nil => simp [unitEqBoxList] at h
    | cons c2 rest2 =>
      rw [unitEqBoxList] at h
      simp only [Bool.and_eq_true] at h
      obtain ⟨hc, hrest⟩ := h
      rw [layout_block_children, layout_block_children]
      have hlay := layout_unitEq c c2 d hc
      cases h1 : c.layout d with
      | none =>
        cases h2 : c2.layout d with
        | none => rfl
        | some cb2 =>
          rw [h1, h2] at hlay
          simp [unitEqOptBox] at hlay
      | some cb =>
        cases h2 : c2.layout d with
        | none =>
          rw [h1, h2] at hlay
          simp [unitEqOptBox] at hlay
        | some cb2 =>
          rw [h1, h2] at hlay
          simp only [unitEqOptBox] at hlay
          have hdim : cb.dimensions = cb2.dimensions := unitEqBox_dimensions _ _ hlay
          simp only [Option.bind_eq_bind, Option.some_bind']
          rw [hdim]
          cases ha : addU32 d.content.height cb2.dimensions.boundingRect.height with
          | none => rfl
          | some hh =>
            simp only [Option.some_bind']
            have hrec := layout_block_children_unitEq rest rest2
              { d with content := { d.content with height := hh } } hrest
            cases h3 : layout_block_children rest
                { d with content := { d.content with height := hh } } with
            | none =>
              cases h3' : layout_block_children rest2
                  { d with content := { d.content with height := hh } } with
              | none => rfl
              | some pr =>
                rw [h3, h3'] at hrec
                simp [unitEqChildrenResult] at hrec
            | some pr =>
              cases h3' : layout_block_children rest2
                  { d with content := { d.content with height := hh } } with
              | none =>
                rw [h3, h3'] at hrec
                simp [unitEqChildrenResult] at hrec
              | some pr' =>
                rw [h3, h3'] at hrec
                obtain ⟨pd, pcs⟩ := pr
                obtain ⟨pd', pcs'⟩ := pr'
                simp only [unitEqChildrenResult, Bool.and_eq_true, beq_iff_eq]
                  at hrec ⊢
                simp only [Option.some_bind', Option.pure_def, unitEqChildrenResult,
                  Bool.and_eq_true, beq_iff_eq]
                refine ⟨hrec.1, ?_⟩
                rw [unitEqBoxList]
                simp only [Bool.and_eq_true]
                exact ⟨hlay, hrec.2⟩

end

mutual

theorem dimTree_unitEq (b b' : LayoutBox) (h : unitEqBox b b' = true) :
    b.dimTree = b'.dimTree := by
  cases b with
  | mk d bt cs =>
    cases b' with
    | mk d' bt' cs' =>
      obtain ⟨hd, hbt, hcs⟩ := unitEqBox_parts d d' bt bt' cs cs' h
      subst hd
      rw [LayoutBox.dimTree, LayoutBox.dimTree, dimTreeList_unitEq cs cs' hcs]

theorem dimTreeList_unitEq (cs cs' : List LayoutBox)
    (h : unitEqBoxList cs cs' = true) : dimTreeList cs = dimTreeList cs' := by
  cases cs with
  | nil =>
    cases cs' with
    | nil => rfl
    | cons c2 r2 => simp [unitEqBoxList] at h
  | cons c r =>
    cases cs' with
    | nil => simp [unitEqBoxList] at h
    | cons c2 r2 =>
      rw [unitEqBoxList] at h
      simp only [Bool.and_eq_true] at h
      rw [dimTreeList, dimTreeList, dimTree_unitEq c c2 h.1,
        dimTreeList_unitEq r r2 h.2]

end

/-- **C9.** Layout is unit-blind: for two layout trees that agree everywhere
except on the `Unit` tags inside `CSSValue.Dimension` payloads (numeric
values equal), laying them out against the same container produces identical
geometry trees — a percent value is treated as that many absolute pixels. -/
theorem claim_C9_units_ignored :
    ∀ (b b' : LayoutBox) (c : Dimensions),
      unitEqBox b b' = true →
      (b.layout c).map LayoutBox.dimTree = (b'.layout c).map LayoutBox.dimTree := by
  intro b b' c h
  have hrel := layout_unitEq b b' c h
  cases h1 : b.layout c with
  | none =>
    cases h2 : b'.layout c with
    | none => rfl
    | some r =>
      rw [h1, h2] at hrel
      simp [unitEqOptBox] at hrel
  | some r =>
    cases h2 : b'.layout c with
    | none =>
      rw [h1, h2] at hrel
      simp [unitEqOptBox] at hrel
    | some r' =>
      rw [h1, h2] at hrel
      simp only [unitEqOptBox] at hrel
      simp only [Option.map_some']
      rw [dimTree_unitEq r r' hrel]

/-- Witness for C9: a box with `padding: 5px; height: 40px` lays out exactly
like the same box with `padding: 5%; height: 40%`. -/
theorem claim_C9_units_ignored_witness :
    unitEqBox boxPxUnits boxPercentUnits = true ∧
    (boxPxUnits.layout containerW800).map LayoutBox.dimTree =
      (boxPercentUnits.layout containerW800).map LayoutBox.dimTree :=
  ⟨rfl, claim_C9_units_ignored boxPxUnits boxPercentUnits containerW800 rfl⟩

/-- Witness for C4: pushing an Inline box onto a Block box whose last child
is an Anonymous box places it inside that Anonymous box. -/
theorem claim_C4_inline_grouping_witness :
    (LayoutBox.mk {} (BoxType.Block (mkStyled .div {} []))
        [LayoutBox.new BoxType.Anonymous]).box_type =
      BoxType.Block (mkStyled .div {} []) ∧
    (LayoutBox.mk {} (BoxType.Block (mkStyled .div {} []))
        [LayoutBox.new BoxType.Anonymous]).children =
      [] ++ [LayoutBox.new BoxType.Anonymous] ∧
    (LayoutBox.new BoxType.Anonymous).isAnonymous = true ∧
    ((LayoutBox.mk {} (BoxType.Block (mkStyled .div {} []))
        [LayoutBox.new BoxType.Anonymous]).push_inline
      (LayoutBox.new (BoxType.Inline (mkStyled .span {} [])))).children =
      [] ++ [addChild (LayoutBox.new BoxType.Anonymous)
        (LayoutBox.new (BoxType.Inline (mkStyled .span {} [])))] :=
  ⟨rfl, rfl, rfl,
    (claim_C4_inline_grouping.2
        (LayoutBox.mk {} (BoxType.Block (mkStyled .div {} []))
          [LayoutBox.new BoxType.Anonymous])
        (LayoutBox.new (BoxType.Inline (mkStyled .span {} [])))).2.1
      (mkStyled .div {} []) [] (LayoutBox.new BoxType.Anonymous) rfl rfl rfl⟩

end Chrusty
